import Mathlib

/-!
# Verification of `pkg/multicloud/huawei/sslcertificate.go` (cloudpods)

A shallow embedding of the Huawei SSL-certificate accessor shim in Lean 4.
The file models the `SSSLCertificate` record, its getter methods, the lazy
detail fetch `GetDetails`, and the two provider-call functions
`GetSSLCertificates` / `GetSSLCertificate`.

External collaborators that are not part of this repository slice (the
`SHuaweiClient` HTTP methods `sslcertList` / `sslcertExport`, the generic
`GetISSLCertificate` fetch, and the Go standard-library primitives
`pem.Decode`, `x509.ParseCertificate`, `sha1.Sum`) are passed in as explicit
function parameters, so that the theorems quantify over their behavior.
Go's `time.Parse` with the fixed layout `"2006-01-02 15:04:05"` and
`Time.AddDate` / `time.Date` normalization are embedded executably below.
-/

set_option autoImplicit false

namespace Cloudpods.Huawei

/-- An error value, modelling Go's `error` interface as used in this file.
`external` is an error produced by an external client call; `wrap` models
`errors.Wrap`/`errors.Wrapf` from `yunion.io/x/pkg/errors` over a non-nil
inner error, and `wrapNil` models the `errors.Wrapf(err, ...)` call on the
downcast-failure path of `GetDetails`, where `err` is nil at that point.
The errors package is not in this repository slice; modelled from the spec:
wrapping always yields a non-nil error carrying the call-stage message. -/
inductive GoError where
  | external (msg : String)
  | wrapNil (stage : String)
  | wrap (stage : String) (inner : GoError)
  deriving DecidableEq, Repr

/-- The polymorphic result of the client's generic `GetISSLCertificate`
fetch: a `cloudprovider.ICloudSSLCertificate` interface value that the
caller downcasts with `cert.(*SSSLCertificate)`. `other` is a value of a
different dynamic type, for which the downcast fails. The payload of
`huawei` carries the concrete fields the fetched record exposes. -/
inductive ICloudSSLCertificate (Rec : Type) where
  | huawei (cert : Rec)
  | other
  deriving Repr

/-- The record type `SSSLCertificate` from `sslcertificate.go`.

The embedded `multicloud.SVirtualResourceBase` and `HuaweiTags` carry no
fields used by this file and are omitted. The unexported `client` pointer
is modelled as an optional client handle (`Option Nat`): `none` is Go's
nil pointer, and a JSON unmarshal can never set this unexported field. -/
structure SSSLCertificate where
  client : Option Nat
  Id : String
  Name : String
  Domain : String
  Sans : String
  SignatureAlgorithm : String
  DeploySupport : Bool
  «Type» : String
  Brand : String
  ExpireTime : String
  DomainType : String
  ValidityPeriod : Int
  Status : String
  DomainCount : Int
  WildcardCount : Int
  Description : String
  EnterpriseProjectId : String
  detailsInitd : Bool
  Certificate : String
  PrivateKey : String
  deriving DecidableEq, Repr

namespace SSSLCertificate

/-- `GetId` returns the raw id. -/
def GetId (s : SSSLCertificate) : String := s.Id

/-- `GetGlobalId` returns the raw id. -/
def GetGlobalId (s : SSSLCertificate) : String := s.Id

/-- `GetName` returns the raw name. -/
def GetName (s : SSSLCertificate) : String := s.Name

/-- `GetSans` returns the raw Sans field. -/
def GetSans (s : SSSLCertificate) : String := s.Sans

/-- `GetCommon` returns the bound domain. -/
def GetCommon (s : SSSLCertificate) : String := s.Domain

/-- `GetIssuer` returns the brand field. -/
def GetIssuer (s : SSSLCertificate) : String := s.Brand

/-- `GetProvince` always returns the empty string. -/
def GetProvince (_ : SSSLCertificate) : String := ""

/-- `GetCountry` always returns the empty string. -/
def GetCountry (_ : SSSLCertificate) : String := ""

/-- `GetCity` always returns the empty string. -/
def GetCity (_ : SSSLCertificate) : String := ""

/-- `GetOrgName` always returns the empty string. -/
def GetOrgName (_ : SSSLCertificate) : String := ""

/-- `GetIsUpload` returns true iff the raw `Status` field equals `"UPLOAD"`. -/
def GetIsUpload (s : SSSLCertificate) : Bool :=
  if s.Status = "UPLOAD" then true else false

/-- The lazy detail fetch `GetDetails`.

`fetch` stands for the owning client's `GetISSLCertificate` method (not in
this repository slice; per the spec it is a generic fetch-by-id returning a
polymorphic value). The Go method mutates the receiver through a pointer;
here the result is the triple of
(returned `(*SSSLCertificate, error)` pair, post-state of the receiver,
number of network calls issued).

Faithful to the source order: on a successful `fetch`, `s.detailsInitd` is
set to `true` BEFORE the `cert.(*SSSLCertificate)` downcast is checked, so a
failed downcast returns an error with `detailsInitd` already set. -/
def GetDetails (fetch : String → Except GoError (ICloudSSLCertificate SSSLCertificate))
    (s : SSSLCertificate) :
    Except GoError SSSLCertificate × SSSLCertificate × Nat :=
  if !s.detailsInitd then
    match fetch s.GetId with
    | .error e => (.error e, s, 1)
    | .ok icert =>
      let s1 := { s with detailsInitd := true }
      match icert with
      | .other => (.error (.wrapNil "cert.(*SSSLCertificate)"), s1, 1)
      | .huawei c =>
        let s2 := { s1 with Certificate := c.Certificate, PrivateKey := c.PrivateKey }
        (.ok s2, s2, 1)
  else
    (.ok s, s, 0)

/-- `GetCert` triggers the lazy detail load and returns the certificate body.
Result: (returned string, post-state, network calls). -/
def GetCert (fetch : String → Except GoError (ICloudSSLCertificate SSSLCertificate))
    (s : SSSLCertificate) : String × SSSLCertificate × Nat :=
  let r := GetDetails fetch s
  (r.2.1.Certificate, r.2.1, r.2.2)

/-- `GetKey` triggers the lazy detail load and returns the private key.
Result: (returned string, post-state, network calls). -/
def GetKey (fetch : String → Except GoError (ICloudSSLCertificate SSSLCertificate))
    (s : SSSLCertificate) : String × SSSLCertificate × Nat :=
  let r := GetDetails fetch s
  (r.2.1.PrivateKey, r.2.1, r.2.2)

end SSSLCertificate

/-! ## Go `time` model

An executable embedding of the pieces of Go's `time` package used by the
source file: `time.Parse` restricted to the fixed layout
`"2006-01-02 15:04:05"`, the zero `time.Time`, and `Time.AddDate`
(which delegates to `time.Date`'s proleptic-Gregorian normalization). -/

/-- A wall-clock instant, as the civil fields Go's `time.Date` produces.
No location/nanoseconds: the layout under study carries neither. -/
structure GoTime where
  year : Int
  month : Int
  day : Int
  hour : Int
  min : Int
  sec : Int
  deriving DecidableEq, Repr

/-- Go's zero `time.Time`: January 1, year 1, 00:00:00. -/
def zeroGoTime : GoTime := ⟨1, 1, 1, 0, 0, 0⟩

/-- Go's leap-year rule (`time.isLeap`). -/
def goIsLeap (y : Int) : Bool := y % 4 = 0 && (y % 100 != 0 || y % 400 = 0)

/-- Days in month `m` of year `y` (Go's `daysIn`). -/
def goDaysIn (m : Nat) (y : Int) : Nat :=
  if m = 2 then (if goIsLeap y then 29 else 28)
  else if m = 4 || m = 6 || m = 9 || m = 11 then 30
  else 31

/-- Go's `norm(hi, lo, base)`: carry `lo` into `hi` so the low part lands in
`[0, base)`. Expressed with flooring division. -/
def goNorm (hi lo base : Int) : Int × Int := (hi + lo.fdiv base, lo.emod base)

/-- Day count of the proleptic Gregorian date `(y, m, d)` (with `m` in
`[1,12]`) from a fixed origin; the civil-calendar arithmetic underlying
Go's `time.Date` (era/year-of-era/day-of-year decomposition). -/
def daysFromCivil (y m d : Int) : Int :=
  let y' := if m ≤ 2 then y - 1 else y
  let era := y'.fdiv 400
  let yoe := y' - era * 400
  let mp := (m + 9).emod 12
  let doy := (153 * mp + 2).fdiv 5 + (d - 1)
  let doe := yoe * 365 + yoe.fdiv 4 - yoe.fdiv 100 + doy
  era * 146097 + doe

/-- Inverse of `daysFromCivil`: the civil date of day number `z`. -/
def civilFromDays (z : Int) : Int × Int × Int :=
  let era := z.fdiv 146097
  let doe := z - era * 146097
  let yoe := (doe - doe.fdiv 1460 + doe.fdiv 36524 - doe.fdiv 146096).fdiv 365
  let y := yoe + era * 400
  let doy := doe - (365 * yoe + yoe.fdiv 4 - yoe.fdiv 100)
  let mp := (5 * doy + 2).fdiv 153
  let d := doy - (153 * mp + 2).fdiv 5 + 1
  let m := if mp < 10 then mp + 3 else mp - 9
  (if m ≤ 2 then y + 1 else y, m, d)

/-- Go's `time.Date` (restricted to whole seconds, no location): normalizes
an arbitrary month into `[1,12]` carrying into the year, carries
seconds/minutes/hours upward, then resolves arbitrary day overflow or
underflow through day-number arithmetic. -/
def goDate (year month day hour min sec : Int) : GoTime :=
  let ym := goNorm year (month - 1) 12
  let ms := goNorm min sec 60
  let hm := goNorm hour ms.1 60
  let dh := goNorm day hm.1 24
  let z := daysFromCivil ym.1 (ym.2 + 1) 1 + (dh.1 - 1)
  let c := civilFromDays z
  ⟨c.1, c.2.1, c.2.2, dh.2, hm.2, ms.2⟩

/-- Go's `Time.AddDate(years, months, days)`. -/
def GoTime.addDate (t : GoTime) (years months days : Int) : GoTime :=
  goDate (t.year + years) (t.month + months) (t.day + days) t.hour t.min t.sec

/-! ### `time.Parse` with layout `"2006-01-02 15:04:05"`

Go's parser for this layout reads a 4-digit year (`stdLongYear`), 2-digit
month/day/minute/second (`getnum` with `fixed = true`), an hour of one or
two digits (`stdHour` uses `getnum` with `fixed = false`), matches the
literal separators, rejects trailing input, and range-checks hour < 24,
minute < 60, second < 60, month in `[1,12]` and day against `daysIn`. -/

/-- The numeric value of an ASCII digit, if `c` is one. -/
def digitVal (c : Char) : Option Nat :=
  if '0' ≤ c ∧ c ≤ '9' then some (c.toNat - 48) else none

/-- Go's `getnum`: one or two digits; exactly two when `fixed` is true. -/
def getnum (fixed : Bool) (cs : List Char) : Option (Nat × List Char) :=
  match cs with
  | c1 :: c2 :: rest =>
    match digitVal c1, digitVal c2 with
    | some d1, some d2 => some (10 * d1 + d2, rest)
    | some d1, none => if fixed then none else some (d1, c2 :: rest)
    | none, _ => none
  | [c1] =>
    match digitVal c1 with
    | some d1 => if fixed then none else some (d1, [])
    | none => none
  | [] => none

/-- Go's `stdLongYear`: exactly four digits. -/
def getnum4 (cs : List Char) : Option (Nat × List Char) :=
  match cs with
  | c1 :: c2 :: c3 :: c4 :: rest =>
    match digitVal c1, digitVal c2, digitVal c3, digitVal c4 with
    | some d1, some d2, some d3, some d4 =>
      some (1000 * d1 + 100 * d2 + 10 * d3 + d4, rest)
    | _, _, _, _ => none
  | _ => none

/-- Match a literal layout character. -/
def expectChar (c : Char) (cs : List Char) : Option (List Char) :=
  match cs with
  | c' :: rest => if c' = c then some rest else none
  | [] => none

/-- Go's `time.Parse("2006-01-02 15:04:05", str)`: `some` of the parsed
instant, or `none` when Go returns a parse error. -/
def goTimeParse (str : String) : Option GoTime :=
  match getnum4 str.data with
  | none => none
  | some (y, r1) =>
  match expectChar '-' r1 with
  | none => none
  | some r2 =>
  match getnum true r2 with
  | none => none
  | some (mo, r3) =>
  match expectChar '-' r3 with
  | none => none
  | some r4 =>
  match getnum true r4 with
  | none => none
  | some (d, r5) =>
  match expectChar ' ' r5 with
  | none => none
  | some r6 =>
  match getnum false r6 with
  | none => none
  | some (h, r7) =>
  match expectChar ':' r7 with
  | none => none
  | some r8 =>
  match getnum true r8 with
  | none => none
  | some (mi, r9) =>
  match expectChar ':' r9 with
  | none => none
  | some r10 =>
  match getnum true r10 with
  | none => none
  | some (sec, r11) =>
  if r11.isEmpty ∧ h < 24 ∧ mi < 60 ∧ sec < 60 ∧
      1 ≤ mo ∧ mo ≤ 12 ∧ 1 ≤ d ∧ d ≤ goDaysIn mo (y : Int) then
    some ⟨(y : Int), (mo : Int), (d : Int), (h : Int), (mi : Int), (sec : Int)⟩
  else
    none

namespace SSSLCertificate

/-- `GetEndDate`: `t, _ := time.Parse("2006-01-02 15:04:05", s.ExpireTime)`;
the error is discarded, so a failed parse yields the zero `time.Time`. -/
def GetEndDate (s : SSSLCertificate) : GoTime :=
  (goTimeParse s.ExpireTime).getD zeroGoTime

/-- `GetStartDate`: `s.GetEndDate().AddDate(0, -s.ValidityPeriod, 0)`. -/
def GetStartDate (s : SSSLCertificate) : GoTime :=
  s.GetEndDate.addDate 0 (-s.ValidityPeriod) 0

end SSSLCertificate

/-! ## Fingerprint -/

/-- The outcome of a Go function call that may abort with a runtime panic
instead of returning: `panic` models an unrecovered Go runtime panic. -/
inductive GoResult (α : Type) where
  | ok (val : α)
  | panic (msg : String)
  deriving DecidableEq, Repr

/-- The digit `fmt` prints for nibble `n` under the `%X` verb. -/
def hexUpperDigit (n : Nat) : Char :=
  if n < 10 then Char.ofNat (48 + n) else Char.ofNat (55 + n)

/-- `fmt.Fprintf(&buf, "%02X", b)` for one byte: exactly two uppercase hex
digits, high nibble first. -/
def hexUpperByte (b : Fin 256) : List Char :=
  [hexUpperDigit (b.val / 16), hexUpperDigit (b.val % 16)]

/-- The accumulated buffer of the `%02X` loop over a byte sequence. -/
def hexUpperOfBytes (bs : List (Fin 256)) : String :=
  String.mk (bs.map hexUpperByte).flatten

namespace SSSLCertificate

/-- `GetFingerprint`.

The Go standard-library primitives are parameters:
* `pemDecode` models `pem.Decode([]byte(s.Certificate))`, returning the
  decoded block's `Bytes` or `none` when no PEM block is found (in
  particular on the empty string);
* `parseCertOk der` models whether `x509.ParseCertificate(der)` succeeds;
  when it succeeds the returned certificate's `Raw` field is exactly the
  DER input, and when it fails the returned pointer is nil, so the
  subsequent `cert.Raw` selector is a nil-pointer dereference — a runtime
  panic, modelled by `GoResult.panic`;
* `sha1Sum` models `sha1.Sum` (its digest is 20 bytes; theorems that need
  this carry it as a hypothesis).

The source first calls `s.GetDetails()` ignoring both results, so the
fingerprint is computed over the post-fetch certificate body; the pair
returned here is (call outcome, post-state of the receiver). -/
def GetFingerprint (pemDecode : String → Option (List (Fin 256)))
    (parseCertOk : List (Fin 256) → Bool)
    (sha1Sum : List (Fin 256) → List (Fin 256))
    (fetch : String → Except GoError (ICloudSSLCertificate SSSLCertificate))
    (s : SSSLCertificate) : GoResult String × SSSLCertificate :=
  let s1 := (GetDetails fetch s).2.1
  match pemDecode s1.Certificate with
  | none => (.ok "", s1)
  | some der =>
    if parseCertOk der then
      (.ok (hexUpperOfBytes (sha1Sum der)), s1)
    else
      (.panic "runtime error: invalid memory address or nil pointer dereference", s1)

end SSSLCertificate

/-! ## Provider query functions (`SHuaweiClient` methods)

The HTTP transport methods `sslcertList` / `sslcertExport` and the JSON
layer (`jsonutils` response objects) are not in this repository slice and
are passed in as parameters. The wire shape is modelled from the spec:
the list response carries a `"certificates"` array whose entries OMIT the
`certificate` / `private_key` payloads, plus a scalar `"total_count"`; the
detail (export) response is one flat record including both payloads. A
JSON unmarshal can never set the unexported `client` / `detailsInitd`
fields of `SSSLCertificate`. -/

/-- A certificate entry of the list response: every exported JSON field of
`SSSLCertificate` except the detail-only `certificate` / `private_key`. -/
structure SWireSSLCertificate where
  Id : String
  Name : String
  Domain : String
  Sans : String
  SignatureAlgorithm : String
  DeploySupport : Bool
  «Type» : String
  Brand : String
  ExpireTime : String
  DomainType : String
  ValidityPeriod : Int
  Status : String
  DomainCount : Int
  WildcardCount : Int
  Description : String
  EnterpriseProjectId : String
  deriving DecidableEq, Repr

/-- Unmarshalling a list entry into a fresh `SSSLCertificate`: JSON fields
populate the exported fields; the unexported `client` and `detailsInitd`
stay at their zero values (nil / false), and the absent `certificate` /
`private_key` keys leave both payload strings empty. -/
def SWireSSLCertificate.toRecord (w : SWireSSLCertificate) : SSSLCertificate where
  client := none
  Id := w.Id
  Name := w.Name
  Domain := w.Domain
  Sans := w.Sans
  SignatureAlgorithm := w.SignatureAlgorithm
  DeploySupport := w.DeploySupport
  «Type» := w.«Type»
  Brand := w.Brand
  ExpireTime := w.ExpireTime
  DomainType := w.DomainType
  ValidityPeriod := w.ValidityPeriod
  Status := w.Status
  DomainCount := w.DomainCount
  WildcardCount := w.WildcardCount
  Description := w.Description
  EnterpriseProjectId := w.EnterpriseProjectId
  detailsInitd := false
  Certificate := ""
  PrivateKey := ""

/-- One record of the detail (export) response: the list fields plus the
`certificate` and `private_key` payloads. -/
structure SWireSSLCertificateDetail extends SWireSSLCertificate where
  Certificate : String
  PrivateKey : String
  deriving DecidableEq, Repr

/-- Unmarshalling the detail response body into `&SSSLCertificate{}`:
like the list entry, but with the payload fields populated. -/
def SWireSSLCertificateDetail.toRecord (w : SWireSSLCertificateDetail) : SSSLCertificate :=
  { w.toSWireSSLCertificate.toRecord with
      Certificate := w.Certificate
      PrivateKey := w.PrivateKey }

/-- The `url.Values` the list call is invoked with. -/
structure CertListParams where
  limit : String
  offset : String
  sort_key : String
  sort_dir : String
  deriving DecidableEq, Repr

/-- The structured list response: `certificates` is the unmarshal result of
the `"certificates"` key (`none` when `resp.Unmarshal(&ret, "certificates")`
fails), `total_count` the result of `resp.Int("total_count")` (`none` when
absent or unparsable, which the source defaults to 0). -/
structure SSLCertListResponse where
  certificates : Option (List SWireSSLCertificate)
  total_count : Option Int
  deriving Repr

/-- `SHuaweiClient.GetSSLCertificates(size, offset)`.

`sslcertList` stands for the client's transport call against
`"scm/certificates"` in `HUAWEI_CERT_DEFAULT_REGION`. The second component
of the result records the query parameters handed to it (its trace), so
theorems can speak about what the underlying call receives; `%d` formatting
of the two ints is Go's decimal rendering, `toString` here. -/
def GetSSLCertificates
    (sslcertList : CertListParams → Except GoError SSLCertListResponse)
    (size offset : Int) :
    Except GoError (List SSSLCertificate × Int) × CertListParams :=
  let size := if size < 1 ∨ size > 50 then 50 else size
  let offset := if offset < 0 then 0 else offset
  let params : CertListParams :=
    { limit := toString size
      offset := toString offset
      sort_key := "certExpiredTime"
      sort_dir := "DESC" }
  match sslcertList params with
  | .error e => (.error (.wrap "CertificateList" e), params)
  | .ok resp =>
    match resp.certificates with
    | none => (.error (.wrap "resp.Unmarshal" (.external "unmarshal")), params)
    | some ws => (.ok (ws.map SWireSSLCertificate.toRecord, (resp.total_count.getD 0)), params)

/-- `SHuaweiClient.GetSSLCertificate(certId)`.

`sslcertExport` stands for the client's export call against
`"scm/certificates"` (`ok none` is a response body on which
`resp.Unmarshal(cert)` fails); `r` is the handle of the calling client,
stored into the returned record's `client` field. -/
def GetSSLCertificate
    (sslcertExport : String → Except GoError (Option SWireSSLCertificateDetail))
    (r : Nat) (certId : String) : Except GoError SSSLCertificate :=
  match sslcertExport certId with
  | .error e => .error (.wrap "DescribeCertificateDetail" e)
  | .ok none => .error (.wrap "Unmarshal" (.external "unmarshal"))
  | .ok (some w) => .ok { w.toRecord with client := some r }

/-! ## Shared concrete values for witnesses -/

/-- The Go zero value `SSSLCertificate{}`. -/
def emptySSLCertificate : SSSLCertificate where
  client := none
  Id := ""
  Name := ""
  Domain := ""
  Sans := ""
  SignatureAlgorithm := ""
  DeploySupport := false
  «Type» := ""
  Brand := ""
  ExpireTime := ""
  DomainType := ""
  ValidityPeriod := 0
  Status := ""
  DomainCount := 0
  WildcardCount := 0
  Description := ""
  EnterpriseProjectId := ""
  detailsInitd := false
  Certificate := ""
  PrivateKey := ""

/-- A list-response wire entry used in concrete instantiations. -/
def sampleWireCert : SWireSSLCertificate where
  Id := "cert-1"
  Name := "n"
  Domain := "example.com"
  Sans := ""
  SignatureAlgorithm := "SHA256WITHRSA"
  DeploySupport := false
  «Type» := "DV_SSL_CERT"
  Brand := "GEOTRUST"
  ExpireTime := "2030-01-01 00:00:00"
  DomainType := "SINGLE_DOMAIN"
  ValidityPeriod := 12
  Status := "ISSUED"
  DomainCount := 1
  WildcardCount := 0
  Description := ""
  EnterpriseProjectId := "0"

/-- The character `fmt` prints for a decimal digit `n < 10`. -/
def decDigit (n : Nat) : Char := Char.ofNat (48 + n)

/-- The two characters of `%02d` for `n < 100`. -/
def fmt2 (n : Nat) : List Char := [decDigit (n / 10), decDigit (n % 10)]

/-- The four characters of `%04d` for `n < 10000`. -/
def fmt4 (n : Nat) : List Char :=
  [decDigit (n / 1000), decDigit (n / 100 % 10), decDigit (n / 10 % 10), decDigit (n % 10)]

/-- A date-time string in the layout `"2006-01-02 15:04:05"` built from its
six components (zero-padded, as the provider's wire format uses). -/
def fmtDateTime (y mo d h mi sec : Nat) : String :=
  String.mk (fmt4 y ++ '-' :: (fmt2 mo ++ '-' :: (fmt2 d ++ ' ' ::
    (fmt2 h ++ ':' :: (fmt2 mi ++ ':' :: fmt2 sec)))))

/-! ## Theorems -/

/-- `fmtDateTime` produces exactly the provider's canonical date strings. -/
theorem fmtDateTime_canonical :
    fmtDateTime 2030 1 1 0 0 0 = "2030-01-01 00:00:00" := by decide

/-- A decimal digit character round-trips through `digitVal`. -/
theorem digitVal_decDigit (k : Nat) (hk : k < 10) : digitVal (decDigit k) = some k := by
  have h : ∀ m, m < 10 → digitVal (decDigit m) = some m := by decide
  exact h k hk

/-- `getnum` consumes exactly the two digits of a `%02d` rendering. -/
theorem getnum_fmt2 (fixed : Bool) (n : Nat) (hn : n < 100) (rest : List Char) :
    getnum fixed (fmt2 n ++ rest) = some (n, rest) := by
  have h1 := digitVal_decDigit (n / 10) (by omega)
  have h2 := digitVal_decDigit (n % 10) (by omega)
  have hv : 10 * (n / 10) + n % 10 = n := by omega
  simp only [fmt2, List.cons_append, List.nil_append, getnum, h1, h2, hv]

/-- `getnum4` consumes exactly the four digits of a `%04d` rendering. -/
theorem getnum4_fmt4 (n : Nat) (hn : n < 10000) (rest : List Char) :
    getnum4 (fmt4 n ++ rest) = some (n, rest) := by
  have h1 := digitVal_decDigit (n / 1000) (by omega)
  have h2 := digitVal_decDigit (n / 100 % 10) (by omega)
  have h3 := digitVal_decDigit (n / 10 % 10) (by omega)
  have h4 := digitVal_decDigit (n % 10) (by omega)
  have hv : 1000 * (n / 1000) + 100 * (n / 100 % 10) + 10 * (n / 10 % 10) + n % 10 = n := by
    omega
  simp only [fmt4, List.cons_append, List.nil_append, getnum4, h1, h2, h3, h4, hv]

/-- `getnum` at the end of the input consumes a full `%02d` rendering. -/
theorem getnum_fmt2_nil (fixed : Bool) (n : Nat) (hn : n < 100) :
    getnum fixed (fmt2 n) = some (n, []) := by
  simpa using getnum_fmt2 fixed n hn []

/-- A literal layout character matches itself. -/
theorem expectChar_cons (c : Char) (rest : List Char) :
    expectChar c (c :: rest) = some rest := by
  simp [expectChar]

/-- Go's `daysIn` never exceeds 31. -/
theorem goDaysIn_le_31 (m : Nat) (y : Int) : goDaysIn m y ≤ 31 := by
  unfold goDaysIn
  split_ifs <;> omega

/-- Round trip: parsing a formatted date-time string recovers its
components, provided they are in range for the layout. -/
theorem goTimeParse_fmtDateTime (y mo d h mi sec : Nat)
    (hy : y < 10000) (hmo1 : 1 ≤ mo) (hmo2 : mo ≤ 12)
    (hd1 : 1 ≤ d) (hd2 : d ≤ goDaysIn mo (y : Int))
    (hh : h < 24) (hmi : mi < 60) (hsec : sec < 60) :
    goTimeParse (fmtDateTime y mo d h mi sec)
      = some ⟨(y : Int), (mo : Int), (d : Int), (h : Int), (mi : Int), (sec : Int)⟩ := by
  have hd31 : d ≤ 31 := le_trans hd2 (goDaysIn_le_31 mo (y : Int))
  simp only [goTimeParse, fmtDateTime, getnum4_fmt4 y hy, expectChar_cons,
    getnum_fmt2 true mo (by omega), getnum_fmt2 true d (by omega),
    getnum_fmt2 false h (by omega), getnum_fmt2 true mi (by omega),
    getnum_fmt2_nil true sec (by omega)]
  rw [if_pos ⟨rfl, hh, hmi, hsec, hmo1, hmo2, hd1, hd2⟩]

/-- C9: `GetIsUpload` returns true iff the raw `Status` field equals
`"UPLOAD"` exactly; case variants such as `"upload"` and the longer
`"UPLOADED"` yield false. -/
theorem C9_GetIsUpload_iff_status_UPLOAD (s : SSSLCertificate) :
    (s.GetIsUpload = true ↔ s.Status = "UPLOAD") ∧
    SSSLCertificate.GetIsUpload { emptySSLCertificate with Status := "upload" } = false ∧
    SSSLCertificate.GetIsUpload { emptySSLCertificate with Status := "UPLOADED" } = false ∧
    SSSLCertificate.GetIsUpload { emptySSLCertificate with Status := "UPLOAD" } = true := by
  refine ⟨?_, by decide, by decide, by decide⟩
  simp [SSSLCertificate.GetIsUpload]

/-- The query parameters `GetSSLCertificates` hands to the transport call,
whatever the transport then does. -/
theorem getSSLCertificates_trace
    (sslcertList : CertListParams → Except GoError SSLCertListResponse)
    (size offset : Int) :
    (GetSSLCertificates sslcertList size offset).2 =
      { limit := toString (if size < 1 ∨ size > 50 then 50 else size)
        offset := toString (if offset < 0 then 0 else offset)
        sort_key := "certExpiredTime"
        sort_dir := "DESC" } := by
  unfold GetSSLCertificates
  dsimp only
  split
  · rfl
  · split <;> rfl

/-- C3: the underlying list call receives `limit = pageSize` exactly when
`pageSize ∈ [1,50]` and `limit = 50` otherwise, and receives
`offset = max(offset, 0)`. -/
theorem C3_list_clamps_limit_and_offset
    (sslcertList : CertListParams → Except GoError SSLCertListResponse)
    (size offset : Int) :
    (GetSSLCertificates sslcertList size offset).2.limit
        = toString (if 1 ≤ size ∧ size ≤ 50 then size else 50) ∧
    (GetSSLCertificates sslcertList size offset).2.offset = toString (max offset 0) := by
  rw [getSSLCertificates_trace]
  constructor
  · have : (if size < 1 ∨ size > 50 then (50 : Int) else size)
        = (if 1 ≤ size ∧ size ≤ 50 then size else 50) := by
      split_ifs <;> omega
    simp [this]
  · have : (if offset < 0 then (0 : Int) else offset) = max offset 0 := by
      split_ifs <;> omega
    simp [this]

/-- C1 counterexample: the detail fetch is not atomic on failure. On the
downcast-failure path, `GetDetails` returns an error yet has already set
`detailsInitd` to true, so the record's state has changed. -/
theorem C1_counterexample_downcast_mutates :
    (SSSLCertificate.GetDetails (fun _ => .ok .other) emptySSLCertificate).1
        = .error (.wrapNil "cert.(*SSSLCertificate)") ∧
    emptySSLCertificate.detailsInitd = false ∧
    (SSSLCertificate.GetDetails (fun _ => .ok .other) emptySSLCertificate).2.1.detailsInitd
        = true := by
  refine ⟨rfl, rfl, rfl⟩

/-- C1 (amended): when the client fetch itself fails, `GetDetails` returns
that error and leaves the record unchanged (`detailsInitd` still false, safe
to retry); but when the fetch succeeds and the downcast fails, the error is
returned with `detailsInitd` already set to true — only `Certificate` and
`PrivateKey` are never changed by an error path. -/
theorem C1_amended_error_paths
    (fetch : String → Except GoError (ICloudSSLCertificate SSSLCertificate))
    (s : SSSLCertificate) (e : GoError) :
    (s.detailsInitd = false → fetch s.Id = .error e →
      s.GetDetails fetch = (.error e, s, 1)) ∧
    (s.detailsInitd = false → fetch s.Id = .ok .other →
      s.GetDetails fetch
        = (.error (.wrapNil "cert.(*SSSLCertificate)"), { s with detailsInitd := true }, 1)) ∧
    (∀ e', (s.GetDetails fetch).1 = .error e' →
      (s.GetDetails fetch).2.1.Certificate = s.Certificate ∧
      (s.GetDetails fetch).2.1.PrivateKey = s.PrivateKey) := by
  refine ⟨?_, ?_, ?_⟩
  · intro hd hf
    simp [SSSLCertificate.GetDetails, SSSLCertificate.GetId, hd, hf]
  · intro hd hf
    simp [SSSLCertificate.GetDetails, SSSLCertificate.GetId, hd, hf]
  · intro e' he
    unfold SSSLCertificate.GetDetails at he ⊢
    rcases hd : s.detailsInitd with _ | _
    · simp only [hd, Bool.not_false, if_pos] at he ⊢
      rcases hf : fetch s.GetId with e'' | icert
      · simp [hf] at he ⊢
      · rcases icert with c | _
        · simp [hf] at he
        · simp [hf] at he ⊢
    · simp [hd] at he

/-- C1 amended, witnessed at a concrete record and fetch. -/
theorem C1_amended_error_paths_witness :
    emptySSLCertificate.GetDetails (fun _ => .error (.external "boom"))
        = (.error (.external "boom"), emptySSLCertificate, 1) ∧
    emptySSLCertificate.GetDetails (fun _ => .ok .other)
        = (.error (.wrapNil "cert.(*SSSLCertificate)"),
           { emptySSLCertificate with detailsInitd := true }, 1) := by
  refine ⟨?_, ?_⟩
  · exact (C1_amended_error_paths (fun _ => .error (.external "boom")) emptySSLCertificate
      (.external "boom")).1 rfl rfl
  · exact (C1_amended_error_paths (fun _ => .ok .other) emptySSLCertificate
      (.external "boom")).2.1 rfl rfl

/-- C4: `GetDetails` is idempotent — after any successful call, a second
call on the resulting record issues no network call and is a no-op success
returning the record unchanged. -/
theorem C4_getDetails_idempotent
    (fetch : String → Except GoError (ICloudSSLCertificate SSSLCertificate))
    (s r s' : SSSLCertificate) (n : Nat)
    (h : s.GetDetails fetch = (.ok r, s', n)) :
    s'.GetDetails fetch = (.ok s', s', 0) := by
  have hd : s'.detailsInitd = true := by
    unfold SSSLCertificate.GetDetails at h
    rcases hd0 : s.detailsInitd with _ | _
    · rw [hd0] at h
      rcases hf : fetch s.GetId with e | icert <;> rw [hf] at h
      · simp at h
      · rcases icert with c | _
        · simp only [Bool.not_false, if_true, Prod.mk.injEq] at h
          rw [← h.2.1]
        · simp at h
    · rw [hd0] at h
      simp only [Bool.not_true, Bool.false_eq_true, if_false, Prod.mk.injEq] at h
      rw [← h.2.1]
      exact hd0
  unfold SSSLCertificate.GetDetails
  simp [hd]

/-- C4, witnessed: a concrete first call that fetches successfully, then a
second call that is a no-op. -/
theorem C4_getDetails_idempotent_witness :
    SSSLCertificate.GetDetails
        (fun _ => .ok (.huawei { emptySSLCertificate with Certificate := "PEM", PrivateKey := "KEY" }))
        { emptySSLCertificate with detailsInitd := true, Certificate := "PEM", PrivateKey := "KEY" }
      = (.ok { emptySSLCertificate with detailsInitd := true, Certificate := "PEM", PrivateKey := "KEY" },
         { emptySSLCertificate with detailsInitd := true, Certificate := "PEM", PrivateKey := "KEY" }, 0) := by
  exact C4_getDetails_idempotent
    (fun _ => .ok (.huawei { emptySSLCertificate with Certificate := "PEM", PrivateKey := "KEY" }))
    emptySSLCertificate
    { emptySSLCertificate with detailsInitd := true, Certificate := "PEM", PrivateKey := "KEY" }
    { emptySSLCertificate with detailsInitd := true, Certificate := "PEM", PrivateKey := "KEY" }
    1 rfl

/-- C10: a successful `GetDetails` changes at most `Certificate`,
`PrivateKey` and `detailsInitd`; every other field is unchanged, and the
returned record is the (post-state) receiver itself. -/
theorem C10_getDetails_frame
    (fetch : String → Except GoError (ICloudSSLCertificate SSSLCertificate))
    (s r s' : SSSLCertificate) (n : Nat)
    (h : s.GetDetails fetch = (.ok r, s', n)) :
    r = s' ∧ s'.client = s.client ∧ s'.Id = s.Id ∧ s'.Name = s.Name ∧
    s'.Domain = s.Domain ∧ s'.Sans = s.Sans ∧
    s'.SignatureAlgorithm = s.SignatureAlgorithm ∧
    s'.DeploySupport = s.DeploySupport ∧ s'.«Type» = s.«Type» ∧
    s'.Brand = s.Brand ∧ s'.ExpireTime = s.ExpireTime ∧
    s'.DomainType = s.DomainType ∧ s'.ValidityPeriod = s.ValidityPeriod ∧
    s'.Status = s.Status ∧ s'.DomainCount = s.DomainCount ∧
    s'.WildcardCount = s.WildcardCount ∧ s'.Description = s.Description ∧
    s'.EnterpriseProjectId = s.EnterpriseProjectId := by
  have hs' : r = s' ∧ (s' = s ∨
      ∃ c : String × String,
        s' = { s with detailsInitd := true, Certificate := c.1, PrivateKey := c.2 }) := by
    unfold SSSLCertificate.GetDetails at h
    rcases hd0 : s.detailsInitd with _ | _
    · rw [hd0] at h
      rcases hf : fetch s.GetId with e | icert <;> rw [hf] at h
      · simp at h
      · rcases icert with c | _
        · simp only [Bool.not_false, if_true, Prod.mk.injEq] at h
          rcases h with ⟨h1, h2, -⟩
          refine ⟨?_, .inr ⟨(c.Certificate, c.PrivateKey), h2.symm⟩⟩
          exact Except.ok.inj (h1.symm.trans (congrArg Except.ok h2))
        · simp at h
    · rw [hd0] at h
      simp only [Bool.not_true, Bool.false_eq_true, if_false, Prod.mk.injEq] at h
      rcases h with ⟨h1, h2, -⟩
      refine ⟨?_, .inl h2.symm⟩
      exact Except.ok.inj (h1.symm.trans (congrArg Except.ok h2))
  rcases hs' with ⟨hr, hcase⟩
  rcases hcase with heq | ⟨c, heq⟩ <;> subst heq <;>
    exact ⟨hr, rfl, rfl, rfl, rfl, rfl, rfl, rfl, rfl, rfl, rfl, rfl, rfl, rfl, rfl, rfl, rfl, rfl⟩

/-- C10, witnessed at a concrete record and fetch. -/
theorem C10_getDetails_frame_witness :
    ({ emptySSLCertificate with detailsInitd := true, Certificate := "PEM" } :
        SSSLCertificate).Domain = emptySSLCertificate.Domain ∧
    ({ emptySSLCertificate with detailsInitd := true, Certificate := "PEM" } :
        SSSLCertificate).ExpireTime = emptySSLCertificate.ExpireTime := by
  have h := C10_getDetails_frame
    (fun _ => .ok (.huawei { emptySSLCertificate with Certificate := "PEM" }))
    emptySSLCertificate
    { emptySSLCertificate with detailsInitd := true, Certificate := "PEM" }
    { emptySSLCertificate with detailsInitd := true, Certificate := "PEM" }
    1 rfl
  exact ⟨h.2.2.2.2.1, h.2.2.2.2.2.2.2.2.2.2.1⟩

/-- C8: `GetStartDate` is `GetEndDate` minus `ValidityPeriod` calendar
months, for every record; in particular expireTime `"2030-01-01 00:00:00"`
with 12 validity months gives start date 2029-01-01 00:00:00, and an
unparsable expireTime gives the zero time minus `ValidityPeriod` months. -/
theorem C8_startDate_is_endDate_minus_months (s : SSSLCertificate) :
    s.GetStartDate = s.GetEndDate.addDate 0 (-s.ValidityPeriod) 0 ∧
    (∀ t : SSSLCertificate, t.ExpireTime = "2030-01-01 00:00:00" →
      t.ValidityPeriod = 12 → t.GetStartDate = ⟨2029, 1, 1, 0, 0, 0⟩) ∧
    (∀ t : SSSLCertificate, goTimeParse t.ExpireTime = none →
      t.GetStartDate = zeroGoTime.addDate 0 (-t.ValidityPeriod) 0) := by
  refine ⟨rfl, ?_, ?_⟩
  · intro t h1 h2
    unfold SSSLCertificate.GetStartDate SSSLCertificate.GetEndDate
    rw [h1, h2]
    decide
  · intro t h1
    unfold SSSLCertificate.GetStartDate SSSLCertificate.GetEndDate
    rw [h1]
    rfl

/-- C8, witnessed at two concrete records. -/
theorem C8_startDate_witness :
    SSSLCertificate.GetStartDate
        { emptySSLCertificate with ExpireTime := "2030-01-01 00:00:00", ValidityPeriod := 12 }
      = ⟨2029, 1, 1, 0, 0, 0⟩ ∧
    SSSLCertificate.GetStartDate { emptySSLCertificate with ValidityPeriod := 7 }
      = zeroGoTime.addDate 0 (-7) 0 := by
  constructor
  · exact (C8_startDate_is_endDate_minus_months emptySSLCertificate).2.1
      { emptySSLCertificate with ExpireTime := "2030-01-01 00:00:00", ValidityPeriod := 12 }
      rfl rfl
  · exact (C8_startDate_is_endDate_minus_months emptySSLCertificate).2.2
      { emptySSLCertificate with ValidityPeriod := 7 } rfl

/-- C6: records produced by the list path have no owning-client reference
and empty certificate/key payloads; the detail path sets the returned
record's owning-client reference to the calling client. -/
theorem C6_list_detail_client_asymmetry
    (sslcertList : CertListParams → Except GoError SSLCertListResponse)
    (size offset : Int) (recs : List SSSLCertificate) (tc : Int)
    (sslcertExport : String → Except GoError (Option SWireSSLCertificateDetail))
    (r : Nat) (certId : String) (c : SSSLCertificate) :
    ((GetSSLCertificates sslcertList size offset).1 = .ok (recs, tc) →
      ∀ rec ∈ recs, rec.client = none ∧ rec.Certificate = "" ∧ rec.PrivateKey = "") ∧
    (GetSSLCertificate sslcertExport r certId = .ok c → c.client = some r) := by
  constructor
  · intro h rec hrec
    unfold GetSSLCertificates at h
    dsimp only at h
    split at h
    · simp at h
    · split at h
      · simp at h
      · dsimp only at h
        injection h with h'
        rw [Prod.mk.injEq] at h'
        obtain ⟨hrecs, -⟩ := h'
        rw [← hrecs] at hrec
        rcases List.mem_map.mp hrec with ⟨w, -, hw⟩
        exact ⟨by rw [← hw]; rfl, by rw [← hw]; rfl, by rw [← hw]; rfl⟩
  · intro h
    unfold GetSSLCertificate at h
    split at h
    · simp at h
    · simp at h
    · have hc := Except.ok.inj h
      rw [← hc]

/-- C6, witnessed with a concrete list response and a concrete detail
response. -/
theorem C6_list_detail_client_asymmetry_witness :
    sampleWireCert.toRecord.client = none ∧
    sampleWireCert.toRecord.Certificate = "" ∧
    sampleWireCert.toRecord.PrivateKey = "" ∧
    SSSLCertificate.client
        { (SWireSSLCertificateDetail.mk sampleWireCert "PEM" "KEY").toRecord with
            client := some 5 }
      = some 5 := by
  have h := C6_list_detail_client_asymmetry
    (fun _ => .ok ⟨some [sampleWireCert], some 7⟩) 10 0
    [sampleWireCert.toRecord] 7
    (fun _ => .ok (some (SWireSSLCertificateDetail.mk sampleWireCert "PEM" "KEY"))) 5 "abc"
    { (SWireSSLCertificateDetail.mk sampleWireCert "PEM" "KEY").toRecord with client := some 5 }
  have h1 := h.1 rfl sampleWireCert.toRecord (List.mem_singleton.mpr rfl)
  exact ⟨h1.1, h1.2.1, h1.2.2, h.2 rfl⟩

/-- C2 (code-bug exhibit): `GetFingerprint` on a certificateBody whose PEM
block decodes but whose bytes are not a parsable X.509 certificate does not
return a string: `x509.ParseCertificate` returns a nil pointer alongside
the ignored error, and the subsequent `cert.Raw` selector dereferences nil
— a runtime panic, contradicting the never-fail-outward accessor contract. -/
theorem C2_fingerprint_panics_on_unparsable_der :
    (SSSLCertificate.GetFingerprint
        (fun str =>
          if str = "-----BEGIN CERTIFICATE-----\nMAA=\n-----END CERTIFICATE-----" then
            some [0x30, 0x00]
          else none)
        (fun _ => false)
        (fun _ => List.replicate 20 0)
        (fun _ => .error (.external "no network"))
        { emptySSLCertificate with
            detailsInitd := true
            Certificate := "-----BEGIN CERTIFICATE-----\nMAA=\n-----END CERTIFICATE-----" }).1
      = .panic "runtime error: invalid memory address or nil pointer dereference" := by
  decide

/-- C7: `GetEndDate` parses `ExpireTime` against the fixed layout
`"2006-01-02 15:04:05"`: a string carrying in-range components yields
exactly those components, and any string the layout rejects silently
yields the zero time. -/
theorem C7_endDate_fixed_format (s : SSSLCertificate) (y mo d h mi sec : Nat)
    (hy : y < 10000) (hmo1 : 1 ≤ mo) (hmo2 : mo ≤ 12)
    (hd1 : 1 ≤ d) (hd2 : d ≤ goDaysIn mo (y : Int))
    (hh : h < 24) (hmi : mi < 60) (hsec : sec < 60)
    (hs : s.ExpireTime = fmtDateTime y mo d h mi sec) :
    s.GetEndDate = ⟨(y : Int), (mo : Int), (d : Int), (h : Int), (mi : Int), (sec : Int)⟩ ∧
    (∀ t : SSSLCertificate, goTimeParse t.ExpireTime = none → t.GetEndDate = zeroGoTime) := by
  constructor
  · unfold SSSLCertificate.GetEndDate
    rw [hs, goTimeParse_fmtDateTime y mo d h mi sec hy hmo1 hmo2 hd1 hd2 hh hmi hsec]
    rfl
  · intro t ht
    unfold SSSLCertificate.GetEndDate
    rw [ht]
    rfl

/-- C7, witnessed: the canonical string `"2030-01-01 00:00:00"` parses to
its components, and an unparsable string yields the zero time. -/
theorem C7_endDate_fixed_format_witness :
    SSSLCertificate.GetEndDate
        { emptySSLCertificate with ExpireTime := fmtDateTime 2030 1 1 0 0 0 }
      = ⟨2030, 1, 1, 0, 0, 0⟩ ∧
    SSSLCertificate.GetEndDate { emptySSLCertificate with ExpireTime := "not-a-date" }
      = zeroGoTime := by
  have h := C7_endDate_fixed_format
    { emptySSLCertificate with ExpireTime := fmtDateTime 2030 1 1 0 0 0 }
    2030 1 1 0 0 0 (by omega) (by omega) (by omega) (by omega) (by decide)
    (by omega) (by omega) (by omega) rfl
  exact ⟨h.1, h.2 { emptySSLCertificate with ExpireTime := "not-a-date" } (by decide)⟩

/-- Each of the two characters `%02X` prints for a byte is an uppercase
hexadecimal digit. -/
theorem hexUpperDigit_mem_hexChars (n : Nat) (hn : n < 16) :
    hexUpperDigit n ∈ "0123456789ABCDEF".data := by
  have h : ∀ m, m < 16 → hexUpperDigit m ∈ "0123456789ABCDEF".data := by decide
  exact h n hn

/-- The `%02X` loop emits two characters per byte. -/
theorem flatten_hexUpperByte_length (bs : List (Fin 256)) :
    ((bs.map hexUpperByte).flatten).length = 2 * bs.length := by
  induction bs with
  | nil => rfl
  | cons b bs ih =>
    simp only [List.map_cons, List.flatten_cons, List.length_append, ih,
      List.length_cons, hexUpperByte, List.length_nil]
    omega

/-- Length of the hex rendering of a byte sequence. -/
theorem hexUpperOfBytes_length (bs : List (Fin 256)) :
    (hexUpperOfBytes bs).length = 2 * bs.length :=
  flatten_hexUpperByte_length bs

/-- Every character of the hex rendering is an uppercase hex digit. -/
theorem mem_hexUpperOfBytes (bs : List (Fin 256)) (c : Char)
    (hc : c ∈ (hexUpperOfBytes bs).data) : c ∈ "0123456789ABCDEF".data := by
  have hc' : c ∈ (bs.map hexUpperByte).flatten := hc
  rw [List.mem_flatten] at hc'
  rcases hc' with ⟨l, hl, hcl⟩
  rcases List.mem_map.mp hl with ⟨b, -, hb⟩
  rw [← hb] at hcl
  simp only [hexUpperByte, List.mem_cons, List.mem_singleton] at hcl
  rcases hcl with h1 | h2
  · rw [h1]; exact hexUpperDigit_mem_hexChars _ (by omega)
  · rcases h2 with h2 | h2
    · rw [h2]; exact hexUpperDigit_mem_hexChars _ (by omega)
    · cases h2

/-- C5: when the (post-detail-fetch) certificateBody decodes as a PEM block
whose bytes parse as an X.509 certificate, `GetFingerprint` returns the
uppercase hex rendering of the 20-byte SHA-1 digest of the DER bytes — a
40-character uppercase-hex string; on an undecodable (in particular empty)
certificateBody it returns `""` without error; and the result is
determined by the certificate bytes alone. -/
theorem C5_fingerprint_hex_of_valid_pem
    (pemDecode : String → Option (List (Fin 256)))
    (parseCertOk : List (Fin 256) → Bool)
    (sha1Sum : List (Fin 256) → List (Fin 256))
    (fetch : String → Except GoError (ICloudSSLCertificate SSSLCertificate))
    (s : SSSLCertificate)
    (hsha : ∀ bs, (sha1Sum bs).length = 20) :
    (∀ der, pemDecode ((s.GetDetails fetch).2.1.Certificate) = some der →
      parseCertOk der = true →
      (s.GetFingerprint pemDecode parseCertOk sha1Sum fetch).1
          = .ok (hexUpperOfBytes (sha1Sum der)) ∧
      (hexUpperOfBytes (sha1Sum der)).length = 40 ∧
      ∀ c ∈ (hexUpperOfBytes (sha1Sum der)).data, c ∈ "0123456789ABCDEF".data) ∧
    (pemDecode ((s.GetDetails fetch).2.1.Certificate) = none →
      (s.GetFingerprint pemDecode parseCertOk sha1Sum fetch).1 = .ok "") ∧
    (∀ t : SSSLCertificate,
      (t.GetDetails fetch).2.1.Certificate = (s.GetDetails fetch).2.1.Certificate →
      (t.GetFingerprint pemDecode parseCertOk sha1Sum fetch).1
          = (s.GetFingerprint pemDecode parseCertOk sha1Sum fetch).1) := by
  refine ⟨?_, ?_, ?_⟩
  · intro der hsome hok
    refine ⟨?_, ?_, ?_⟩
    · unfold SSSLCertificate.GetFingerprint
      dsimp only
      rw [hsome]
      simp [hok]
    · rw [hexUpperOfBytes_length, hsha]
    · intro c hc
      exact mem_hexUpperOfBytes _ c hc
  · intro hnone
    unfold SSSLCertificate.GetFingerprint
    dsimp only
    rw [hnone]
  · intro t ht
    unfold SSSLCertificate.GetFingerprint
    dsimp only
    rw [ht]
    rcases pemDecode ((s.GetDetails fetch).2.1.Certificate) with _ | der
    · rfl
    · dsimp only
      by_cases hok : parseCertOk der = true
      · rw [if_pos hok, if_pos hok]
      · rw [if_neg hok, if_neg hok]

/-- C5, witnessed with concrete standard-library stubs. -/
theorem C5_fingerprint_hex_witness :
    (SSSLCertificate.GetFingerprint (fun _ => some [0x30]) (fun _ => true)
        (fun _ => List.replicate 20 65) (fun _ => .error (.external "e"))
        emptySSLCertificate).1
      = .ok (hexUpperOfBytes (List.replicate 20 65)) ∧
    (hexUpperOfBytes (List.replicate 20 65)).length = 40 := by
  have h := C5_fingerprint_hex_of_valid_pem (fun _ => some [0x30]) (fun _ => true)
    (fun _ => List.replicate 20 65) (fun _ => .error (.external "e"))
    emptySSLCertificate (fun bs => by simp)
  exact ⟨(h.1 [0x30] rfl rfl).1, (h.1 [0x30] rfl rfl).2.1⟩

end Cloudpods.Huawei
